import Mathlib

/-!
Shallow embedding of `src/utils/publications.ts` (the publication pipeline of
the lab website) in Lean 4.

Modelling conventions:
  * JS strings are Lean `String` / `List Char`; the regex passes of
    `decodeLatex` are transcribed as explicit left-to-right scanners with the
    exact leftmost, non-overlapping global-replace semantics of
    `String.prototype.replace(/.../g, ...)`.
  * JS `parseInt` (radix unspecified) is `jsParseInt`: skip leading
    whitespace, optional sign, `0x`/`0X` hex prefix, then the maximal digit
    prefix; `none` models `NaN`.
  * JS object field access that can yield `undefined` is `Option`;
    `a || b` on strings (falsy = `""`/`undefined`) is `jsOrS`.
  * `bibtexParse.toJSON` is an external library; its outcome is abstracted by
    `LibResult`: it throws, returns a non-array, or returns a list of parsed
    JSON objects (`RawEntry`, whose `citationKey` is optional, as for
    non-reference chunks such as `@comment` blocks).
  * Exceptions are `Except Unit`; a function that catches all exceptions and
    returns a value is total here, which is the never-raises contract.
  * The module-global `cache` and `Date.now()` are threaded explicitly:
    `fetchPublications` takes the cache slot, the current time and the
    network outcome, and returns data, new cache slot and whether a network
    request was issued.
  * `String.normalize('NFC')` is modelled on the reachable inputs (an ASCII
    letter followed by one of the seven combining marks of the accent map)
    by the canonical composition table `composeTable`.
-/

/-- Whitespace per the JS `\s` class (the code points reachable in this
code base: space, tab, LF, CR, VT, FF, NBSP, BOM). -/
def jsSpace (c : Char) : Bool :=
  c = ' ' || c = '\t' || c = '\n' || c = '\r' || c = Char.ofNat 11 ||
  c = Char.ofNat 12 || c = Char.ofNat 160 || c = Char.ofNat 65279

/-- JS `String.prototype.trim`: drop leading and trailing whitespace. -/
def jsTrim (s : String) : String :=
  ⟨((s.data.dropWhile jsSpace).reverse.dropWhile jsSpace).reverse⟩

/-- Tests whether `pat` occurs at the head of `hay`. -/
def headMatches : List Char → List Char → Bool
  | _, [] => true
  | [], _ :: _ => false
  | h :: hs, p :: ps => h == p && headMatches hs ps

/-- Tests whether `pat` occurs somewhere in `hay` (JS `String.prototype.includes`). -/
def hasSub : List Char → List Char → Bool
  | [], pat => pat.isEmpty
  | h :: t, pat => headMatches (h :: t) pat || hasSub t pat

/-- JS `s.includes(pat)` on strings. -/
def strContains (s pat : String) : Bool := hasSub s.data pat.data

/-- JS `s.toLowerCase()` on the ASCII strings reachable here (character-wise
lower-casing). -/
def jsToLower (s : String) : String := ⟨s.data.map Char.toLower⟩

/-- JS `s.startsWith(pre)`. -/
def jsStartsWith (s pre : String) : Bool := headMatches s.data pre.data

/-- Value of a hexadecimal digit character, if any. -/
def hexVal (c : Char) : Option Nat :=
  if c.isDigit then some (c.toNat - 48)
  else if 'a' ≤ c && c ≤ 'f' then some (c.toNat - 87)
  else if 'A' ≤ c && c ≤ 'F' then some (c.toNat - 55)
  else none

/-- Maximal prefix of hexadecimal digit values. -/
def hexDigits : List Char → List Nat
  | [] => []
  | c :: t =>
    match hexVal c with
    | some d => d :: hexDigits t
    | none => []

/-- Maximal prefix of decimal digit values. -/
def decDigits : List Char → List Nat
  | [] => []
  | c :: t => if c.isDigit then (c.toNat - 48) :: decDigits t else []

/-- Digit-list value in the given base. -/
def digitsToNat (base : Nat) (ds : List Nat) : Nat :=
  ds.foldl (fun a d => a * base + d) 0

/-- JS `parseInt(s)` with no radix argument: leading whitespace skipped,
optional sign, optional `0x`/`0X` hex prefix, maximal digit prefix;
`none` models `NaN`. -/
def jsParseInt (s : String) : Option Int :=
  let cs := s.data.dropWhile jsSpace
  let sgn : Int := match cs with
    | '-' :: _ => -1
    | _ => 1
  let cs₁ := match cs with
    | '+' :: t => t
    | '-' :: t => t
    | t => t
  let hex : Bool := match cs₁ with
    | '0' :: c :: _ => c = 'x' || c = 'X'
    | _ => false
  let ds := if hex then hexDigits (cs₁.drop 2) else decDigits cs₁
  if ds.isEmpty then none
  else some (sgn * (digitsToNat (if hex then 16 else 10) ds : Nat))

/-- JS `parseInt` applied to a possibly-`undefined` value:
`parseInt(undefined)` is `NaN`. -/
def parseIntOpt (o : Option String) : Option Int :=
  match o with
  | none => none
  | some s => jsParseInt s

/-- Opening brace character. -/
def lbrace : Char := Char.ofNat 123

/-- Closing brace character. -/
def rbrace : Char := Char.ofNat 125

/-- Backslash character. -/
def bslash : Char := '\\'

/-- One global pass of `str.replace(/\{([^{}\\]+)\}/g, '$1')`: strip braces
wrapping one or more characters none of which is a brace or backslash.
Fuel is the input length; every step consumes at least one character, so the
fuel never runs out on the initial call. -/
def bracePass : Nat → List Char → List Char
  | 0, cs => cs
  | _ + 1, [] => []
  | f + 1, c :: rest =>
    if c = lbrace then
      let run := rest.takeWhile (fun x => !(x = lbrace || x = rbrace || x = bslash))
      match rest.drop run.length with
      | r :: tail =>
        if r = rbrace && !run.isEmpty then run ++ bracePass f tail
        else lbrace :: bracePass f rest
      | [] => lbrace :: bracePass f rest
    else c :: bracePass f rest

/-- Accent characters of the regex class `['"`^~=.]`. -/
def isAccentChar (c : Char) : Bool :=
  c = '\'' || c = '"' || c = Char.ofNat 96 || c = '^' || c = '~' || c = '=' || c = '.'

/-- Combining mark a given accent character maps to (the `map` object of
`decodeLatex`; total on `isAccentChar`). -/
def accentMark (c : Char) : Char :=
  if c = '\'' then Char.ofNat 0x301
  else if c = '"' then Char.ofNat 0x308
  else if c = Char.ofNat 96 then Char.ofNat 0x300
  else if c = '^' then Char.ofNat 0x302
  else if c = '~' then Char.ofNat 0x303
  else if c = '=' then Char.ofNat 0x304
  else Char.ofNat 0x307

/-- Canonical (NFC) compositions of an ASCII letter with the seven combining
marks of the accent map: the pairs reachable in `decodeLatex`. -/
def composeTable : List (Char × Char × Char) :=
  [('a', Char.ofNat 0x301, 'á'), ('e', Char.ofNat 0x301, 'é'), ('i', Char.ofNat 0x301, 'í'),
   ('o', Char.ofNat 0x301, 'ó'), ('u', Char.ofNat 0x301, 'ú'), ('y', Char.ofNat 0x301, 'ý'),
   ('c', Char.ofNat 0x301, 'ć'), ('l', Char.ofNat 0x301, 'ĺ'), ('n', Char.ofNat 0x301, 'ń'),
   ('r', Char.ofNat 0x301, 'ŕ'), ('s', Char.ofNat 0x301, 'ś'), ('z', Char.ofNat 0x301, 'ź'),
   ('g', Char.ofNat 0x301, 'ǵ'), ('k', Char.ofNat 0x301, 'ḱ'), ('m', Char.ofNat 0x301, 'ḿ'),
   ('p', Char.ofNat 0x301, 'ṕ'), ('w', Char.ofNat 0x301, 'ẃ'),
   ('A', Char.ofNat 0x301, 'Á'), ('E', Char.ofNat 0x301, 'É'), ('I', Char.ofNat 0x301, 'Í'),
   ('O', Char.ofNat 0x301, 'Ó'), ('U', Char.ofNat 0x301, 'Ú'), ('Y', Char.ofNat 0x301, 'Ý'),
   ('C', Char.ofNat 0x301, 'Ć'), ('L', Char.ofNat 0x301, 'Ĺ'), ('N', Char.ofNat 0x301, 'Ń'),
   ('R', Char.ofNat 0x301, 'Ŕ'), ('S', Char.ofNat 0x301, 'Ś'), ('Z', Char.ofNat 0x301, 'Ź'),
   ('G', Char.ofNat 0x301, 'Ǵ'), ('K', Char.ofNat 0x301, 'Ḱ'), ('M', Char.ofNat 0x301, 'Ḿ'),
   ('P', Char.ofNat 0x301, 'Ṕ'), ('W', Char.ofNat 0x301, 'Ẃ'),
   ('a', Char.ofNat 0x308, 'ä'), ('e', Char.ofNat 0x308, 'ë'), ('i', Char.ofNat 0x308, 'ï'),
   ('o', Char.ofNat 0x308, 'ö'), ('u', Char.ofNat 0x308, 'ü'), ('y', Char.ofNat 0x308, 'ÿ'),
   ('h', Char.ofNat 0x308, 'ḧ'), ('w', Char.ofNat 0x308, 'ẅ'), ('x', Char.ofNat 0x308, 'ẍ'),
   ('t', Char.ofNat 0x308, 'ẗ'),
   ('A', Char.ofNat 0x308, 'Ä'), ('E', Char.ofNat 0x308, 'Ë'), ('I', Char.ofNat 0x308, 'Ï'),
   ('O', Char.ofNat 0x308, 'Ö'), ('U', Char.ofNat 0x308, 'Ü'), ('Y', Char.ofNat 0x308, 'Ÿ'),
   ('H', Char.ofNat 0x308, 'Ḧ'), ('W', Char.ofNat 0x308, 'Ẅ'), ('X', Char.ofNat 0x308, 'Ẍ'),
   ('a', Char.ofNat 0x300, 'à'), ('e', Char.ofNat 0x300, 'è'), ('i', Char.ofNat 0x300, 'ì'),
   ('o', Char.ofNat 0x300, 'ò'), ('u', Char.ofNat 0x300, 'ù'), ('n', Char.ofNat 0x300, 'ǹ'),
   ('w', Char.ofNat 0x300, 'ẁ'), ('y', Char.ofNat 0x300, 'ỳ'),
   ('A', Char.ofNat 0x300, 'À'), ('E', Char.ofNat 0x300, 'È'), ('I', Char.ofNat 0x300, 'Ì'),
   ('O', Char.ofNat 0x300, 'Ò'), ('U', Char.ofNat 0x300, 'Ù'), ('N', Char.ofNat 0x300, 'Ǹ'),
   ('W', Char.ofNat 0x300, 'Ẁ'), ('Y', Char.ofNat 0x300, 'Ỳ'),
   ('a', Char.ofNat 0x302, 'â'), ('e', Char.ofNat 0x302, 'ê'), ('i', Char.ofNat 0x302, 'î'),
   ('o', Char.ofNat 0x302, 'ô'), ('u', Char.ofNat 0x302, 'û'), ('c', Char.ofNat 0x302, 'ĉ'),
   ('g', Char.ofNat 0x302, 'ĝ'), ('h', Char.ofNat 0x302, 'ĥ'), ('j', Char.ofNat 0x302, 'ĵ'),
   ('s', Char.ofNat 0x302, 'ŝ'), ('w', Char.ofNat 0x302, 'ŵ'), ('y', Char.ofNat 0x302, 'ŷ'),
   ('z', Char.ofNat 0x302, 'ẑ'),
   ('A', Char.ofNat 0x302, 'Â'), ('E', Char.ofNat 0x302, 'Ê'), ('I', Char.ofNat 0x302, 'Î'),
   ('O', Char.ofNat 0x302, 'Ô'), ('U', Char.ofNat 0x302, 'Û'), ('C', Char.ofNat 0x302, 'Ĉ'),
   ('G', Char.ofNat 0x302, 'Ĝ'), ('H', Char.ofNat 0x302, 'Ĥ'), ('J', Char.ofNat 0x302, 'Ĵ'),
   ('S', Char.ofNat 0x302, 'Ŝ'), ('W', Char.ofNat 0x302, 'Ŵ'), ('Y', Char.ofNat 0x302, 'Ŷ'),
   ('Z', Char.ofNat 0x302, 'Ẑ'),
   ('a', Char.ofNat 0x303, 'ã'), ('n', Char.ofNat 0x303, 'ñ'), ('o', Char.ofNat 0x303, 'õ'),
   ('i', Char.ofNat 0x303, 'ĩ'), ('u', Char.ofNat 0x303, 'ũ'), ('e', Char.ofNat 0x303, 'ẽ'),
   ('v', Char.ofNat 0x303, 'ṽ'), ('y', Char.ofNat 0x303, 'ỹ'),
   ('A', Char.ofNat 0x303, 'Ã'), ('N', Char.ofNat 0x303, 'Ñ'), ('O', Char.ofNat 0x303, 'Õ'),
   ('I', Char.ofNat 0x303, 'Ĩ'), ('U', Char.ofNat 0x303, 'Ũ'), ('E', Char.ofNat 0x303, 'Ẽ'),
   ('V', Char.ofNat 0x303, 'Ṽ'), ('Y', Char.ofNat 0x303, 'Ỹ'),
   ('a', Char.ofNat 0x304, 'ā'), ('e', Char.ofNat 0x304, 'ē'), ('i', Char.ofNat 0x304, 'ī'),
   ('o', Char.ofNat 0x304, 'ō'), ('u', Char.ofNat 0x304, 'ū'), ('y', Char.ofNat 0x304, 'ȳ'),
   ('g', Char.ofNat 0x304, 'ḡ'),
   ('A', Char.ofNat 0x304, 'Ā'), ('E', Char.ofNat 0x304, 'Ē'), ('I', Char.ofNat 0x304, 'Ī'),
   ('O', Char.ofNat 0x304, 'Ō'), ('U', Char.ofNat 0x304, 'Ū'), ('Y', Char.ofNat 0x304, 'Ȳ'),
   ('G', Char.ofNat 0x304, 'Ḡ'),
   ('a', Char.ofNat 0x307, 'ȧ'), ('b', Char.ofNat 0x307, 'ḃ'), ('c', Char.ofNat 0x307, 'ċ'),
   ('d', Char.ofNat 0x307, 'ḋ'), ('e', Char.ofNat 0x307, 'ė'), ('f', Char.ofNat 0x307, 'ḟ'),
   ('g', Char.ofNat 0x307, 'ġ'), ('h', Char.ofNat 0x307, 'ḣ'), ('m', Char.ofNat 0x307, 'ṁ'),
   ('n', Char.ofNat 0x307, 'ṅ'), ('o', Char.ofNat 0x307, 'ȯ'), ('p', Char.ofNat 0x307, 'ṗ'),
   ('r', Char.ofNat 0x307, 'ṙ'), ('s', Char.ofNat 0x307, 'ṡ'), ('t', Char.ofNat 0x307, 'ṫ'),
   ('w', Char.ofNat 0x307, 'ẇ'), ('x', Char.ofNat 0x307, 'ẋ'), ('y', Char.ofNat 0x307, 'ẏ'),
   ('z', Char.ofNat 0x307, 'ż'),
   ('A', Char.ofNat 0x307, 'Ȧ'), ('B', Char.ofNat 0x307, 'Ḃ'), ('C', Char.ofNat 0x307, 'Ċ'),
   ('D', Char.ofNat 0x307, 'Ḋ'), ('E', Char.ofNat 0x307, 'Ė'), ('F', Char.ofNat 0x307, 'Ḟ'),
   ('G', Char.ofNat 0x307, 'Ġ'), ('H', Char.ofNat 0x307, 'Ḣ'), ('I', Char.ofNat 0x307, 'İ'),
   ('M', Char.ofNat 0x307, 'Ṁ'), ('N', Char.ofNat 0x307, 'Ṅ'), ('O', Char.ofNat 0x307, 'Ȯ'),
   ('P', Char.ofNat 0x307, 'Ṗ'), ('R', Char.ofNat 0x307, 'Ṙ'), ('S', Char.ofNat 0x307, 'Ṡ'),
   ('T', Char.ofNat 0x307, 'Ṫ'), ('W', Char.ofNat 0x307, 'Ẇ'), ('X', Char.ofNat 0x307, 'Ẋ'),
   ('Y', Char.ofNat 0x307, 'Ẏ'), ('Z', Char.ofNat 0x307, 'Ż')]

/-- Canonical composition of a base letter and a combining mark, if one
exists (models `normalize('NFC')` on such a pair). -/
def composePair (b m : Char) : Option Char :=
  (composeTable.find? (fun e => e.1 == b && e.2.1 == m)).map (fun e => e.2.2)

/-- Result of `(char + mark).normalize('NFC')`. -/
def nfcPair (b m : Char) : List Char :=
  match composePair b m with
  | some c => [c]
  | none => [b, m]

/-- One global pass of the accent replacement
`str.replace(/\\(['"`^~=.])(?:\{([a-zA-Z])\}|([a-zA-Z]))/g, ...)`. -/
def accentPass : Nat → List Char → List Char
  | 0, cs => cs
  | _ + 1, [] => []
  | f + 1, c :: rest =>
    if c = bslash then
      match rest with
      | a :: rest₂ =>
        if isAccentChar a then
          match rest₂ with
          | x :: y :: z :: tail =>
            if x = lbrace && y.isAlpha && z = rbrace then
              nfcPair y (accentMark a) ++ accentPass f tail
            else if x.isAlpha then
              nfcPair x (accentMark a) ++ accentPass f (y :: z :: tail)
            else bslash :: accentPass f rest
          | x :: tail =>
            if x.isAlpha then nfcPair x (accentMark a) ++ accentPass f tail
            else bslash :: accentPass f rest
          | [] => bslash :: accentPass f rest
        else bslash :: accentPass f rest
      | [] => [bslash]
    else c :: accentPass f rest

/-- Replacement text for one cedilla match on letter `l` with matched chunk
`chunk`: the letter c (either case) becomes the letter with cedilla, any
other letter leaves the match unchanged. -/
def cedApply (l : Char) (chunk : List Char) : List Char :=
  if l = 'c' then ['ç'] else if l = 'C' then ['Ç'] else chunk

/-- One global pass of `str.replace(/\\c(?:\{([a-zA-Z])\}|\s+([a-zA-Z]))/g, ...)`. -/
def cedillaPass : Nat → List Char → List Char
  | 0, cs => cs
  | _ + 1, [] => []
  | f + 1, c :: rest =>
    if c = bslash then
      match rest with
      | 'c' :: rest₂ =>
        match rest₂ with
        | x :: y :: z :: tail =>
          if x = lbrace && y.isAlpha && z = rbrace then
            cedApply y [bslash, 'c', lbrace, y, rbrace] ++ cedillaPass f tail
          else
            let ws := rest₂.takeWhile jsSpace
            match ws, rest₂.drop ws.length with
            | _ :: _, l :: tail₂ =>
              if l.isAlpha then
                cedApply l ([bslash, 'c'] ++ ws ++ [l]) ++ cedillaPass f tail₂
              else bslash :: cedillaPass f rest
            | _, _ => bslash :: cedillaPass f rest
        | _ =>
          let ws := rest₂.takeWhile jsSpace
          match ws, rest₂.drop ws.length with
          | _ :: _, l :: tail₂ =>
            if l.isAlpha then
              cedApply l ([bslash, 'c'] ++ ws ++ [l]) ++ cedillaPass f tail₂
            else bslash :: cedillaPass f rest
          | _, _ => bslash :: cedillaPass f rest
      | _ => bslash :: cedillaPass f rest
    else c :: cedillaPass f rest

/-- One global pass replacing the two-character escape backslash-`t` by `r`
(used for the underscore, ampersand and escaped-space replacements). -/
def escPass (t r : Char) : Nat → List Char → List Char
  | 0, cs => cs
  | _ + 1, [] => []
  | f + 1, c :: rest =>
    if c = bslash then
      match rest with
      | x :: rest₂ =>
        if x = t then r :: escPass t r f rest₂ else bslash :: escPass t r f rest
      | [] => [bslash]
    else c :: escPass t r f rest

/-- One global pass of `str.replace(/\s+/g, ' ')`: collapse whitespace runs
to a single space. -/
def collapsePass : Nat → List Char → List Char
  | 0, cs => cs
  | _ + 1, [] => []
  | f + 1, c :: rest =>
    if jsSpace c then ' ' :: collapsePass f (rest.dropWhile jsSpace)
    else c :: collapsePass f rest

/-- One iteration of the cleanup loop of `decodeLatex`, applying the
replacements in source order. -/
def decodePass (cs : List Char) : List Char :=
  let s₁ := bracePass cs.length cs
  let s₂ := accentPass s₁.length s₁
  let s₃ := cedillaPass s₂.length s₂
  let s₄ := escPass '_' '_' s₃.length s₃
  let s₅ := escPass '&' '&' s₄.length s₄
  let s₆ := escPass ' ' ' ' s₅.length s₅
  collapsePass s₆.length s₆

/-- Cleanup loop of `decodeLatex`: repeat `decodePass` until a fixpoint or
the 10-iteration bound is reached. -/
def decodeLoop : Nat → List Char → List Char
  | 0, cs => cs
  | n + 1, cs =>
    let cs' := decodePass cs
    if cs' = cs then cs else decodeLoop n cs'

/-- The `decodeLatex` function of the source: empty guard, bounded cleanup
loop, final trim. -/
def decodeLatex (val : String) : String :=
  if val = "" then "" else jsTrim ⟨decodeLoop 10 val.data⟩

/-- The `clean` helper of the source: empty guard, `decodeLatex`, trim. -/
def clean (val : String) : String :=
  if val = "" then "" else jsTrim (decodeLatex val)

/-- One global pass of `authorRaw.replace(/\r?\n/g, ' ')`. -/
def newlinePass : List Char → List Char
  | [] => []
  | '\r' :: '\n' :: t => ' ' :: newlinePass t
  | '\n' :: t => ' ' :: newlinePass t
  | c :: t => c :: newlinePass t

/-- Tests whether the three characters spell `and` case-insensitively. -/
def isAndChars (a n d : Char) : Bool :=
  (a == 'a' || a == 'A') && (n == 'n' || n == 'N') && (d == 'd' || d == 'D')

/-- Splitter for `split(/\s+and\s+/i)`: scans left to right, accumulating the
current fragment (reversed) in `acc`; a separator is a whitespace run, the
word `and` case-insensitively, and another whitespace run. -/
def splitAndAux : Nat → List Char → List Char → List (List Char)
  | 0, cs, acc => [acc.reverse ++ cs]
  | _ + 1, [], acc => [acc.reverse]
  | f + 1, c :: rest, acc =>
    if jsSpace c then
      let ws := (c :: rest).takeWhile jsSpace
      match (c :: rest).drop ws.length with
      | a :: n :: d :: tail =>
        if isAndChars a n d then
          let ws₂ := tail.takeWhile jsSpace
          if ws₂.isEmpty then splitAndAux f rest (c :: acc)
          else acc.reverse :: splitAndAux f (tail.drop ws₂.length) []
        else splitAndAux f rest (c :: acc)
      | _ => splitAndAux f rest (c :: acc)
    else splitAndAux f rest (c :: acc)

/-- Author-list processing of `parseBibTex`: newline normalization, split on
the `and` separator, per-name `clean`, drop empty names. -/
def splitAuthors (raw : String) : List String :=
  let cs := newlinePass raw.data
  ((splitAndAux cs.length cs []).map (fun l => clean ⟨l⟩)).filter
    (fun s => s.length > 0)

/-- One parsed JSON object from `bibtexParse.toJSON`. Fields of the untyped
JS objects may be `undefined`: `citationKey` is absent on non-reference
chunks (such as `@comment` blocks), and `entryTags` is an object modelled as
an association list in insertion order with pairwise-distinct names. -/
structure RawEntry where
  citationKey : Option String
  entryType : String
  entryTags : List (String × String)
deriving DecidableEq

/-- The `Publication` interface of the source. The `doi` field is always
assigned a string by the code; `url` is stored verbatim and may be absent. -/
structure Publication where
  type : String
  key : String
  title : String
  authors : List String
  year : String
  venue : String
  url : Option String
  doi : String
  bibtex : String
deriving DecidableEq

/-- JS object field read `tags[k]`: `none` models `undefined`. -/
def lookupTag (tags : List (String × String)) (k : String) : Option String :=
  (tags.find? (fun kv => kv.1 == k)).map (fun kv => kv.2)

/-- JS `a || d` for a possibly-`undefined` string `a` (falsy values are
`undefined` and the empty string). -/
def jsOrS (o : Option String) (d : String) : String :=
  match o with
  | some s => if s = "" then d else s
  | none => d

/-- The venue fallback chain `tags.journal || tags.booktitle || tags.school || ""`. -/
def venueRawOf (e : RawEntry) : String :=
  jsOrS (lookupTag e.entryTags "journal")
    (jsOrS (lookupTag e.entryTags "booktitle")
      (jsOrS (lookupTag e.entryTags "school") ""))

/-- The guard `tags.eprinttype && tags.eprinttype.toLowerCase() === 'arxiv'`. -/
def eprintArxiv (o : Option String) : Bool :=
  match o with
  | some s => !(s = "") && jsToLower s == "arxiv"
  | none => false

/-- The `MIN_YEAR` constant of the source. -/
def MIN_YEAR : Int := 2014

/-- The `makeBibtex` closure: reconstructs a BibTeX string from the parsed
entry (`Object.entries` iterates the tags in insertion order). -/
def makeBibtex (type key : String) (tags : List (String × String)) : String :=
  "@" ++ type ++ "\x7b" ++ key ++ ",\n" ++
    (tags.foldl (fun acc kv => acc ++ "  " ++ kv.1 ++ " = \x7b" ++ kv.2 ++ "\x7d,\n") "") ++
    "\x7d"

/-- Construction of one `Publication` from a non-excluded entry with
citation key `key` and parsed year `year`, field for field as in the loop
body of `parseBibTex`. -/
def mkPub (e : RawEntry) (key : String) (year : Int) : Publication :=
  { type := e.entryType
    key := key
    title := clean (jsOrS (lookupTag e.entryTags "title") "")
    authors := splitAuthors (jsOrS (lookupTag e.entryTags "author") "")
    year := toString year
    venue := clean (venueRawOf e)
    url := lookupTag e.entryTags "url"
    doi :=
      let d := jsOrS (lookupTag e.entryTags "doi") ""
      if !(d = "") && !(jsStartsWith d "http") then clean d else d
    bibtex := makeBibtex e.entryType key e.entryTags }

/-- One iteration of the entry loop of `parseBibTex`. The disjunction of
the preprint filter short-circuits: the venue test runs first, and only
when it is false is `key.toLowerCase()` evaluated, so a key-less chunk
whose venue contains `corr` is skipped via `continue` without any throw.
`.error ()` models the TypeError of `key.toLowerCase()` on an `undefined`
`citationKey` once the right operand is reached; `.ok none` models
`continue` (entry filtered out); `.ok (some p)` models `entries.push(p)`. -/
def processEntry (e : RawEntry) : Except Unit (Option Publication) :=
  if strContains (jsToLower (venueRawOf e)) "corr" then .ok none
  else
    match e.citationKey with
    | none => .error ()
    | some key =>
      if strContains (jsToLower key) "corr/" then .ok none
      else if eprintArxiv (lookupTag e.entryTags "eprinttype") then .ok none
      else
        match parseIntOpt (lookupTag e.entryTags "year") with
        | none => .ok none
        | some year =>
          if year < MIN_YEAR then .ok none else .ok (some (mkPub e key year))

/-- The entry loop of `parseBibTex`: an exception at any entry aborts the
whole loop (there is no per-entry handler in the source). -/
def processAll : List RawEntry → Except Unit (List Publication)
  | [] => .ok []
  | e :: rest =>
    match processEntry e with
    | .error u => .error u
    | .ok none => processAll rest
    | .ok (some p) =>
      match processAll rest with
      | .error u => .error u
      | .ok ps => .ok (p :: ps)

/-- Outcome of the external `bibtexParse.toJSON` call: it may throw, return
a non-array value, or return an array of parsed objects. -/
inductive LibResult where
  | throws
  | nonArray
  | entries (es : List RawEntry)
deriving DecidableEq

/-- The `parseBibTex` function: `[]` when the library throws (the enclosing
`try`/`catch` returns `[]`), when it returns a non-array, or when any entry
of the loop throws; otherwise the pushed publications in document order. -/
def parseBibTex : LibResult → List Publication
  | .throws => []
  | .nonArray => []
  | .entries es =>
    match processAll es with
    | .ok ps => ps
    | .error _ => []

/-- The module-global cache slot `{ data, timestamp }`. -/
structure CacheState where
  data : List Publication
  timestamp : Int
deriving DecidableEq

/-- Outcome of the network part of `fetchPublications`: `fetch` throws, the
response is non-success (`!response.ok`), `response.text()` throws, or the
body text is obtained and handed to the parser (abstracted by the library
outcome it produces). -/
inductive NetResult where
  | fetchThrows
  | notOk
  | textThrows
  | ok (lib : LibResult)
deriving DecidableEq

/-- Result of one `fetchPublications` invocation: returned data, the cache
slot after the call, and whether a network request was issued. -/
structure FetchOut where
  data : List Publication
  cache : Option CacheState
  fetched : Bool
deriving DecidableEq

/-- The `CACHE_TTL` constant: five minutes in milliseconds. -/
def CACHE_TTL : Int := 5 * 60 * 1000

/-- Sort key of the comparator `(a, b) => parseInt(b.year) - parseInt(a.year)`.
Entries produced by the parser always carry a numeral `year`, so the
`NaN` default is never reached on the comparator's actual inputs. -/
def yearKey (p : Publication) : Int := (jsParseInt p.year).getD 0

/-- Stable descending insertion: `x` goes after exactly the elements with a
strictly larger key. -/
def insertDesc (x : Publication) : List Publication → List Publication
  | [] => [x]
  | h :: t => if yearKey x < yearKey h then h :: insertDesc x t else x :: h :: t

/-- The sort `entries.sort((a, b) => parseInt(b.year) - parseInt(a.year))`:
JS `Array.prototype.sort` is stable and orders by the comparator, which this
stable insertion sort realizes extensionally. -/
def sortPubs (l : List Publication) : List Publication := l.foldr insertDesc []

/-- The cache-freshness test `cache && now - cache.timestamp < CACHE_TTL`. -/
def isFresh (cache : Option CacheState) (now : Int) : Bool :=
  match cache with
  | some c => decide (now - c.timestamp < CACHE_TTL)
  | none => false

/-- The network outcomes that reach the `catch` block of `fetchPublications`. -/
def netFails : NetResult → Bool
  | .fetchThrows => true
  | .notOk => true
  | .textThrows => true
  | .ok _ => false

/-- The fallback of the `catch` block: the stale cache data if the slot is
occupied, otherwise the empty list. -/
def cacheFallback : Option CacheState → List Publication
  | some c => c.data
  | none => []

/-- The part of `fetchPublications` past the cache-freshness test: fetch,
parse, sort, store; any thrown error is absorbed by the `catch` block,
which returns the fallback and leaves the cache slot untouched. -/
def fetchMiss (cache : Option CacheState) (now : Int) (net : NetResult) : FetchOut :=
  match net with
  | .ok lib =>
    let sorted := sortPubs (parseBibTex lib)
    ⟨sorted, some ⟨sorted, now⟩, true⟩
  | _ => ⟨cacheFallback cache, cache, true⟩

/-- The `fetchPublications` entry point: fresh cache is served with no
network request; otherwise the fetch-parse-sort-store path runs with the
`catch` fallback. The function is total: no error reaches the caller. -/
def fetchPublications (cache : Option CacheState) (now : Int) (net : NetResult) : FetchOut :=
  match cache with
  | some c =>
    if now - c.timestamp < CACHE_TTL then ⟨c.data, some c, false⟩
    else fetchMiss (some c) now net
  | none => fetchMiss none now net

/-- Concrete publication used in the stale-fallback instances. -/
def pubA : Publication :=
  ⟨"article", "ka", "Title A", ["Alice Smith"], "2020", "Venue A", none, "", "bibA"⟩

/-- Concrete publication used in the cache-mutation instances. -/
def pubB : Publication :=
  ⟨"article", "kb", "Title B", [], "2019", "Venue B", none, "", "bibB"⟩

/-- Entry whose citation key contains the substring `corr` but not `corr/`. -/
def eCorrKey : RawEntry :=
  ⟨some "my-corr-entry", "article", [("journal", "Nature"), ("year", "2020"), ("title", "T")]⟩

/-- Entry published at the preprint venue CoRR. -/
def eCorrVenue : RawEntry :=
  ⟨some "k1", "article", [("journal", "CoRR"), ("year", "2020")]⟩

/-- Well-formed sample entry of year 2014. -/
def eMain : RawEntry :=
  ⟨some "kg", "article", [("title", "T"), ("author", "A B"), ("year", "2014"), ("journal", "J")]⟩

/-- Parsed chunk with no citation key, as the library produces for
non-reference blocks. -/
def eNoKey : RawEntry := ⟨none, "comment", []⟩

/-- Well-formed entry placed beside the malformed one. -/
def eOk6 : RawEntry := ⟨some "kc", "article", [("year", "2016"), ("journal", "JJ")]⟩

/-- Entry carrying an `eprinttype` of arXiv. -/
def eArxiv : RawEntry :=
  ⟨some "ka2", "article", [("eprinttype", "arXiv"), ("journal", "Nature"), ("year", "2020")]⟩

/-- Entry carrying a plain (non-URL) DOI. -/
def eDoi : RawEntry :=
  ⟨some "kd", "article", [("year", "2015"), ("doi", "10.1/xyz"), ("journal", "J")]⟩

theorem processEntry_error_iff (e : RawEntry) :
    processEntry e = .error () ↔
      e.citationKey = none ∧ strContains (jsToLower (venueRawOf e)) "corr" = false := by
  by_cases hv : strContains (jsToLower (venueRawOf e)) "corr" = true
  · simp [processEntry, hv]
  · have hv' : strContains (jsToLower (venueRawOf e)) "corr" = false := by
      simpa using hv
    cases hk : e.citationKey with
    | none => simp [processEntry, hv', hk]
    | some k =>
      simp only [processEntry, hv', hk]
      constructor
      · intro h
        rw [if_neg (by simp)] at h
        split at h
        · exact absurd h (by simp)
        · split at h
          · exact absurd h (by simp)
          · split at h
            · exact absurd h (by simp)
            · split at h <;> exact absurd h (by simp)
      · rintro ⟨h, -⟩
        exact absurd h (by simp)

theorem processAll_middle_none (e : RawEntry) (h : processEntry e = .ok none) :
    ∀ (l₁ l₂ : List RawEntry), processAll (l₁ ++ e :: l₂) = processAll (l₁ ++ l₂)
  | [], l₂ => by simp [processAll, h]
  | x :: l₁, l₂ => by
    have ih := processAll_middle_none e h l₁ l₂
    cases hx : processEntry x <;> simp [processAll, hx, ih]

theorem parseBibTex_middle_none (e : RawEntry) (h : processEntry e = .ok none)
    (l₁ l₂ : List RawEntry) :
    parseBibTex (.entries (l₁ ++ e :: l₂)) = parseBibTex (.entries (l₁ ++ l₂)) := by
  simp [parseBibTex, processAll_middle_none e h l₁ l₂]

theorem processAll_middle_mem (e : RawEntry) (p : Publication)
    (h : processEntry e = .ok (some p)) :
    ∀ (l₁ l₂ : List RawEntry) (ps : List Publication),
      processAll (l₁ ++ e :: l₂) = .ok ps → p ∈ ps
  | [], l₂, ps, hps => by
    simp only [List.nil_append, processAll, h] at hps
    cases hq : processAll l₂ with
    | error u => rw [hq] at hps; exact absurd hps (by simp)
    | ok qs =>
      rw [hq] at hps
      obtain rfl : p :: qs = ps := by simpa using hps
      exact List.mem_cons_self p qs
  | x :: l₁, l₂, ps, hps => by
    rw [List.cons_append] at hps
    cases hx : processEntry x with
    | error u => simp [processAll, hx] at hps
    | ok o =>
      cases o with
      | none =>
        simp only [processAll, hx] at hps
        exact processAll_middle_mem e p h l₁ l₂ ps hps
      | some q =>
        simp only [processAll, hx] at hps
        cases hq : processAll (l₁ ++ e :: l₂) with
        | error u => rw [hq] at hps; exact absurd hps (by simp)
        | ok qs =>
          rw [hq] at hps
          obtain rfl : q :: qs = ps := by simpa using hps
          exact List.mem_cons_of_mem q (processAll_middle_mem e p h l₁ l₂ qs hq)

theorem processAll_error_of_none_key (e : RawEntry) (hk : e.citationKey = none)
    (hv : strContains (jsToLower (venueRawOf e)) "corr" = false) :
    ∀ (l : List RawEntry), e ∈ l → processAll l = .error ()
  | x :: t, hm => by
    rcases List.mem_cons.mp hm with rfl | ht
    · have hx : processEntry e = .error () := (processEntry_error_iff e).mpr ⟨hk, hv⟩
      simp [processAll, hx]
    · have ih := processAll_error_of_none_key e hk hv t ht
      cases hx : processEntry x with
      | error u => cases u; simp [processAll, hx]
      | ok o => cases o <;> simp [processAll, hx, ih]

theorem mem_insertDesc (x y : Publication) :
    ∀ (l : List Publication), y ∈ insertDesc x l ↔ y = x ∨ y ∈ l
  | [] => by simp [insertDesc]
  | h :: t => by
    by_cases hc : yearKey x < yearKey h
    · simp only [insertDesc, if_pos hc, List.mem_cons, mem_insertDesc x y t]
      tauto
    · simp only [insertDesc, if_neg hc, List.mem_cons]

theorem pairwise_insertDesc (x : Publication) :
    ∀ (l : List Publication), l.Pairwise (fun a b => yearKey b ≤ yearKey a) →
      (insertDesc x l).Pairwise (fun a b => yearKey b ≤ yearKey a)
  | [], _ => by simp [insertDesc]
  | h :: t, hp => by
    rw [List.pairwise_cons] at hp
    by_cases hc : yearKey x < yearKey h
    · simp only [insertDesc, if_pos hc]
      rw [List.pairwise_cons]
      refine ⟨fun y hy => ?_, pairwise_insertDesc x t hp.2⟩
      rcases (mem_insertDesc x y t).mp hy with rfl | hyt
      · exact le_of_lt hc
      · exact hp.1 y hyt
    · simp only [insertDesc, if_neg hc]
      rw [List.pairwise_cons]
      refine ⟨fun y hy => ?_, List.pairwise_cons.mpr hp⟩
      rcases List.mem_cons.mp hy with rfl | hyt
      · exact le_of_not_lt hc
      · exact le_trans (hp.1 y hyt) (le_of_not_lt hc)

theorem sortPubs_pairwise :
    ∀ (l : List Publication), (sortPubs l).Pairwise (fun a b => yearKey b ≤ yearKey a)
  | [] => by simp [sortPubs]
  | x :: t => by
    have h := pairwise_insertDesc x (sortPubs t) (sortPubs_pairwise t)
    simpa [sortPubs] using h

theorem filter_insertDesc (x : Publication) (y : Int) :
    ∀ (l : List Publication),
      (insertDesc x l).filter (fun p => yearKey p == y) =
        if yearKey x == y then x :: l.filter (fun p => yearKey p == y)
        else l.filter (fun p => yearKey p == y)
  | [] => by
    by_cases hx : yearKey x = y
    · have hb : (yearKey x == y) = true := beq_iff_eq.mpr hx
      simp [insertDesc, List.filter, hb]
    · have hb : (yearKey x == y) = false := beq_eq_false_iff_ne.mpr hx
      simp [insertDesc, List.filter, hb]
  | h :: t => by
    by_cases hc : yearKey x < yearKey h
    · simp only [insertDesc, if_pos hc]
      rw [List.filter_cons, List.filter_cons, filter_insertDesc x y t]
      by_cases hx : yearKey x = y
      · have hh : ¬(yearKey h = y) := by omega
        simp [hx, hh]
      · simp [hx]
    · simp only [insertDesc, if_neg hc]
      rw [List.filter_cons]

theorem sortPubs_filter (y : Int) :
    ∀ (l : List Publication),
      (sortPubs l).filter (fun p => yearKey p == y) = l.filter (fun p => yearKey p == y)
  | [] => rfl
  | x :: t => by
    show (insertDesc x (sortPubs t)).filter _ = _
    rw [filter_insertDesc x y (sortPubs t), sortPubs_filter y t, List.filter_cons]

/-- Claim C2 (confirmed): if the cache slot holds data whose timestamp is
younger than the five-minute TTL, `fetchPublications` returns the cached
list immediately, leaves the cache slot unchanged, and performs no network
request. -/
theorem fetchPublications_fresh_cache_hit (c : CacheState) (now : Int) (net : NetResult)
    (h : now - c.timestamp < CACHE_TTL) :
    fetchPublications (some c) now net = ⟨c.data, some c, false⟩ := by
  simp [fetchPublications, h]

/-- Witness for claim C2 at a concrete fresh cache slot. -/
theorem fetchPublications_fresh_cache_hit_witness :
    (0 : Int) - (0 : Int) < CACHE_TTL ∧
      fetchPublications (some ⟨[pubA], 0⟩) 0 .fetchThrows = ⟨[pubA], some ⟨[pubA], 0⟩, false⟩ :=
  ⟨by decide, fetchPublications_fresh_cache_hit ⟨[pubA], 0⟩ 0 .fetchThrows (by decide)⟩

/-- Claim C1 counterexample: with a stale cache slot holding one
publication, a parse exception (the library throws) makes
`fetchPublications` return the empty list rather than the cached one: the
exception is absorbed inside `parseBibTex`, so the orchestrator takes the
success path with an empty parse result. -/
theorem fetchPublications_parse_throw_cex :
    (fetchPublications (some ⟨[pubA], 0⟩) CACHE_TTL (.ok .throws)).data ≠ [pubA] := by
  decide

/-- Claim C1 amended: when the network fetch throws, the HTTP response is
non-success, or reading the body throws, `fetchPublications` returns the
cached list if the slot is occupied and the empty list otherwise, and never
raises; a parse exception, by contrast, is absorbed inside `parseBibTex`
and produces an empty successful result instead of the cached fallback. -/
theorem fetchPublications_failure_fallback (cache : Option CacheState) (now : Int)
    (net : NetResult) (h : netFails net = true) :
    (fetchPublications cache now net).data = cacheFallback cache := by
  cases cache with
  | none =>
    cases net with
    | ok lib => simp [netFails] at h
    | fetchThrows => rfl
    | notOk => rfl
    | textThrows => rfl
  | some c =>
    by_cases hf : now - c.timestamp < CACHE_TTL
    · simp [fetchPublications, hf, cacheFallback]
    · cases net with
      | ok lib => simp [netFails] at h
      | fetchThrows => simp [fetchPublications, hf, fetchMiss, cacheFallback]
      | notOk => simp [fetchPublications, hf, fetchMiss, cacheFallback]
      | textThrows => simp [fetchPublications, hf, fetchMiss, cacheFallback]

/-- Witness for the amended claim C1 at a concrete failing call. -/
theorem fetchPublications_failure_fallback_witness :
    netFails .notOk = true ∧ (fetchPublications none 0 .notOk).data = cacheFallback none :=
  ⟨rfl, fetchPublications_failure_fallback none 0 .notOk rfl⟩

/-- Claim C10 counterexample: a parse exception on a stale occupied cache
slot does mutate the slot: the call takes the success path with an empty
parse result and overwrites both the stored list and the timestamp. -/
theorem fetchPublications_parse_throw_cache_overwrite_cex :
    (fetchPublications (some ⟨[pubB], 5⟩) (CACHE_TTL + 5) (.ok .throws)).cache ≠
      some ⟨[pubB], 5⟩ := by
  decide

/-- Claim C10 amended: when the network fetch throws, the HTTP response is
non-success, or reading the body throws, the cache slot is left exactly as
it was; a parse exception, by contrast, reaches the success path and
overwrites the slot. -/
theorem fetchPublications_failure_cache_unchanged (cache : Option CacheState) (now : Int)
    (net : NetResult) (h : netFails net = true) :
    (fetchPublications cache now net).cache = cache := by
  cases cache with
  | none =>
    cases net with
    | ok lib => simp [netFails] at h
    | fetchThrows => rfl
    | notOk => rfl
    | textThrows => rfl
  | some c =>
    by_cases hf : now - c.timestamp < CACHE_TTL
    · simp [fetchPublications, hf]
    · cases net with
      | ok lib => simp [netFails] at h
      | fetchThrows => simp [fetchPublications, hf, fetchMiss]
      | notOk => simp [fetchPublications, hf, fetchMiss]
      | textThrows => simp [fetchPublications, hf, fetchMiss]

/-- Witness for the amended claim C10 at a concrete failing call. -/
theorem fetchPublications_failure_cache_unchanged_witness :
    netFails .fetchThrows = true ∧ (fetchPublications none 0 .fetchThrows).cache = none :=
  ⟨rfl, fetchPublications_failure_cache_unchanged none 0 .fetchThrows rfl⟩

/-- Claim C5 (confirmed): on every successful fetch-and-parse (a cache miss
whose network and body reads succeed), the list returned and the list
stored in the cache slot are the stable year-descending sort of the parser
output: pairwise non-increasing in the numeric year key, and for every
year the entries of that year appear exactly in parser order. -/
theorem fetchPublications_sorted_stable (cache : Option CacheState) (now : Int)
    (lib : LibResult) (h : isFresh cache now = false) :
    (fetchPublications cache now (.ok lib)).data = sortPubs (parseBibTex lib) ∧
      (fetchPublications cache now (.ok lib)).cache =
        some ⟨sortPubs (parseBibTex lib), now⟩ ∧
      ((fetchPublications cache now (.ok lib)).data).Pairwise
        (fun a b => yearKey b ≤ yearKey a) ∧
      ∀ y : Int,
        ((fetchPublications cache now (.ok lib)).data).filter (fun p => yearKey p == y) =
          (parseBibTex lib).filter (fun p => yearKey p == y) := by
  have hout : fetchPublications cache now (.ok lib) =
      ⟨sortPubs (parseBibTex lib), some ⟨sortPubs (parseBibTex lib), now⟩, true⟩ := by
    cases cache with
    | none => rfl
    | some c =>
      have hf : ¬(now - c.timestamp < CACHE_TTL) := by
        simpa [isFresh] using h
      simp [fetchPublications, hf, fetchMiss]
  rw [hout]
  exact ⟨rfl, rfl, sortPubs_pairwise _, fun y => sortPubs_filter y _⟩

/-- Witness for claim C5 at a concrete cache miss. -/
theorem fetchPublications_sorted_stable_witness :
    isFresh none 0 = false ∧
      (fetchPublications none 0 (.ok .throws)).cache =
        some ⟨sortPubs (parseBibTex .throws), 0⟩ :=
  ⟨rfl, (fetchPublications_sorted_stable none 0 .throws rfl).2.1⟩

/-- Claim C3 (confirmed): an entry whose year field is absent or not
parseable by `parseInt`, or parses below 2014, is removed from the output
of `parseBibTex` (deleting it changes nothing); an entry with parsed year
at least 2014 that is not excluded by the preprint filters contributes its
publication to the output whenever the entry loop completes. -/
theorem parseBibTex_year_filter (e : RawEntry) (k : String) (hk : e.citationKey = some k)
    (l₁ l₂ : List RawEntry) :
    ((parseIntOpt (lookupTag e.entryTags "year") = none ∨
        (∃ y, parseIntOpt (lookupTag e.entryTags "year") = some y ∧ y < MIN_YEAR)) →
      parseBibTex (.entries (l₁ ++ e :: l₂)) = parseBibTex (.entries (l₁ ++ l₂))) ∧
    (∀ y, parseIntOpt (lookupTag e.entryTags "year") = some y → MIN_YEAR ≤ y →
      (strContains (jsToLower (venueRawOf e)) "corr" || strContains (jsToLower k) "corr/") = false →
      eprintArxiv (lookupTag e.entryTags "eprinttype") = false →
      ∀ ps, processAll (l₁ ++ e :: l₂) = .ok ps → mkPub e k y ∈ ps) := by
  constructor
  · intro hy
    refine parseBibTex_middle_none e ?_ l₁ l₂
    by_cases hv : strContains (jsToLower (venueRawOf e)) "corr" = true
    · simp [processEntry, hv]
    · have hv' : strContains (jsToLower (venueRawOf e)) "corr" = false := by
        simpa using hv
      by_cases h2 : strContains (jsToLower k) "corr/" = true
      · simp [processEntry, hv', hk, h2]
      · have h2' : strContains (jsToLower k) "corr/" = false := by
          simpa using h2
        by_cases h3 : eprintArxiv (lookupTag e.entryTags "eprinttype") = true
        · simp [processEntry, hv', hk, h2', h3]
        · have h3' : eprintArxiv (lookupTag e.entryTags "eprinttype") = false := by
            simpa using h3
          rcases hy with hnone | ⟨y, hy, hlt⟩
          · simp [processEntry, hv', hk, h2', h3', hnone]
          · simp [processEntry, hv', hk, h2', h3', hy, hlt]
  · intro y hy hge hcorr heprint ps hps
    refine processAll_middle_mem e (mkPub e k y) ?_ l₁ l₂ ps hps
    have hcorr' := hcorr
    rw [Bool.or_eq_false_iff] at hcorr'
    obtain ⟨hv', hkc⟩ := hcorr'
    simp [processEntry, hv', hk, hkc, heprint, hy, not_lt.mpr hge]

/-- Witness for claim C3: the concrete 2014 entry is produced. -/
theorem parseBibTex_year_filter_witness :
    eMain.citationKey = some "kg" ∧ mkPub eMain "kg" 2014 ∈ [mkPub eMain "kg" 2014] :=
  ⟨rfl, (parseBibTex_year_filter eMain "kg" rfl [] []).2 2014 (by decide) (by decide)
    (by decide) (by decide) [mkPub eMain "kg" 2014] rfl⟩

/-- Claim C4 counterexample: an entry whose citation key contains the
preprint marker `corr` case-insensitively (but not the key-specific
`corr/`) is NOT excluded: `parseBibTex` keeps it, because the code tests
the venue for `corr` but the key only for `corr/`. -/
theorem parseBibTex_corr_key_marker_cex :
    strContains (jsToLower "my-corr-entry") "corr" = true ∧
      (parseBibTex (.entries [eCorrKey])).length = 1 := by
  exact ⟨by decide, by decide⟩

/-- Claim C4 amended: an entry whose venue text contains `corr`
case-insensitively, or whose citation key contains `corr/`
case-insensitively, is excluded from the output of `parseBibTex`
regardless of its year. -/
theorem parseBibTex_corr_exclusion (e : RawEntry) (k : String)
    (hk : e.citationKey = some k)
    (h : strContains (jsToLower (venueRawOf e)) "corr" = true ∨
      strContains (jsToLower k) "corr/" = true)
    (l₁ l₂ : List RawEntry) :
    parseBibTex (.entries (l₁ ++ e :: l₂)) = parseBibTex (.entries (l₁ ++ l₂)) := by
  refine parseBibTex_middle_none e ?_ l₁ l₂
  by_cases hv : strContains (jsToLower (venueRawOf e)) "corr" = true
  · simp [processEntry, hv]
  · have hv' : strContains (jsToLower (venueRawOf e)) "corr" = false := by
      simpa using hv
    rcases h with h | h
    · exact absurd h (by simp [hv'])
    · simp [processEntry, hv', hk, h]

/-- Witness for the amended claim C4: the concrete CoRR entry is dropped. -/
theorem parseBibTex_corr_exclusion_witness :
    eCorrVenue.citationKey = some "k1" ∧
      strContains (jsToLower (venueRawOf eCorrVenue)) "corr" = true ∧
      parseBibTex (.entries [eCorrVenue]) = parseBibTex (.entries []) :=
  ⟨rfl, by decide, parseBibTex_corr_exclusion eCorrVenue "k1" rfl (Or.inl (by decide)) [] []⟩

/-- Claim C9 (confirmed): an entry carrying an `eprinttype` field equal to
arXiv case-insensitively is excluded from the output of `parseBibTex`,
whatever its venue, key and year. -/
theorem parseBibTex_eprinttype_arxiv (e : RawEntry) (k s : String)
    (hk : e.citationKey = some k) (hs : lookupTag e.entryTags "eprinttype" = some s)
    (ha : jsToLower s = "arxiv") (l₁ l₂ : List RawEntry) :
    parseBibTex (.entries (l₁ ++ e :: l₂)) = parseBibTex (.entries (l₁ ++ l₂)) := by
  refine parseBibTex_middle_none e ?_ l₁ l₂
  have hne : ¬(s = "") := by
    intro h0
    rw [h0] at ha
    exact absurd ha (by decide)
  have hep : eprintArxiv (lookupTag e.entryTags "eprinttype") = true := by
    simp [eprintArxiv, hs, hne, ha]
  by_cases hv : strContains (jsToLower (venueRawOf e)) "corr" = true
  · simp [processEntry, hv]
  · have hv' : strContains (jsToLower (venueRawOf e)) "corr" = false := by
      simpa using hv
    by_cases h2 : strContains (jsToLower k) "corr/" = true
    · simp [processEntry, hv', hk, h2]
    · have h2' : strContains (jsToLower k) "corr/" = false := by
        simpa using h2
      simp [processEntry, hv', hk, h2', hep]

/-- Witness for claim C9: the concrete arXiv entry is dropped. -/
theorem parseBibTex_eprinttype_arxiv_witness :
    eArxiv.citationKey = some "ka2" ∧
      lookupTag eArxiv.entryTags "eprinttype" = some "arXiv" ∧
      jsToLower "arXiv" = "arxiv" ∧
      parseBibTex (.entries [eArxiv]) = parseBibTex (.entries []) :=
  ⟨rfl, by decide, by decide,
    parseBibTex_eprinttype_arxiv eArxiv "ka2" "arXiv" rfl (by decide) (by decide) [] []⟩

/-- Claim C8 (confirmed): for every stored entry with a `doi` field, the
stored `doi` is the raw value verbatim when it begins with `http` (the
code's notion of a URL scheme, per its own comment), and otherwise the raw
value passed through the text decoder `clean` like other text fields. -/
theorem parseBibTex_doi_field (e : RawEntry) (p : Publication) (d : String)
    (hp : processEntry e = .ok (some p)) (hd : lookupTag e.entryTags "doi" = some d) :
    p.doi = if jsStartsWith d "http" then d else clean d := by
  by_cases hv : strContains (jsToLower (venueRawOf e)) "corr" = true
  · rw [processEntry, if_pos hv] at hp
    exact absurd hp (by simp)
  · have hv' : strContains (jsToLower (venueRawOf e)) "corr" = false := by
      simpa using hv
    cases hk : e.citationKey with
    | none => simp [processEntry, hv', hk] at hp
    | some k =>
      simp only [processEntry, hv', hk] at hp
      rw [if_neg (by simp)] at hp
      split at hp
      · exact absurd hp (by simp)
      · split at hp
        · exact absurd hp (by simp)
        · split at hp
          · exact absurd hp (by simp)
          · split at hp
            · exact absurd hp (by simp)
            · obtain rfl : mkPub e k _ = p := by simpa using hp
              show (let dd := jsOrS (lookupTag e.entryTags "doi") ""
                if !(dd = "") && !(jsStartsWith dd "http") then clean dd else dd) = _
              rw [hd]
              by_cases hde : d = ""
              · subst hde
                simp [jsOrS, clean, jsStartsWith, headMatches]
              · have hdd : jsOrS (some d) "" = d := by simp [jsOrS, hde]
                simp only [hdd]
                by_cases hh : jsStartsWith d "http"
                · simp [hde, hh]
                · simp [hde, hh]

/-- Witness for claim C8 at the concrete non-URL DOI entry. -/
theorem parseBibTex_doi_field_witness :
    processEntry eDoi = .ok (some (mkPub eDoi "kd" 2015)) ∧
      lookupTag eDoi.entryTags "doi" = some "10.1/xyz" ∧
      (mkPub eDoi "kd" 2015).doi =
        if jsStartsWith "10.1/xyz" "http" then "10.1/xyz" else clean "10.1/xyz" :=
  ⟨rfl, rfl, parseBibTex_doi_field eDoi (mkPub eDoi "kd" 2015) "10.1/xyz" rfl rfl⟩

/-- Claim C6 counterexample: a document whose second parsed chunk lacks a
citation key makes the whole batch fail: `parseBibTex` returns the empty
sequence even though the first entry is well formed and would be stored on
its own, instead of skipping only the malformed chunk. -/
theorem parseBibTex_malformed_entry_cex :
    processEntry eOk6 = .ok (some (mkPub eOk6 "kc" 2016)) ∧
      parseBibTex (.entries [eOk6, eNoKey]) = [] := by
  exact ⟨rfl, rfl⟩

/-- Claim C6 amended: entries rejected by the filtering rules are skipped
one by one, and a key-less chunk whose venue text contains the preprint
marker is likewise skipped individually (the filter's disjunction
short-circuits before the key is read); but a key-less chunk whose venue
lacks the marker makes the key read throw and aborts the whole loop:
`parseBibTex` returns the empty sequence for the entire document. It also
returns the empty sequence when the library throws or yields a non-array,
and it never raises. -/
theorem parseBibTex_malformed_abort (l : List RawEntry) :
    ((∃ e ∈ l, e.citationKey = none ∧
        strContains (jsToLower (venueRawOf e)) "corr" = false) →
      parseBibTex (.entries l) = []) ∧
      (∀ (e : RawEntry) (l₁ l₂ : List RawEntry), e.citationKey = none →
        strContains (jsToLower (venueRawOf e)) "corr" = true →
        parseBibTex (.entries (l₁ ++ e :: l₂)) = parseBibTex (.entries (l₁ ++ l₂))) ∧
      parseBibTex .throws = [] ∧ parseBibTex .nonArray = [] := by
  refine ⟨?_, ?_, rfl, rfl⟩
  · rintro ⟨e, hm, hk, hv⟩
    have h := processAll_error_of_none_key e hk hv l hm
    simp [parseBibTex, h]
  · intro e l₁ l₂ _hk hv
    refine parseBibTex_middle_none e ?_ l₁ l₂
    simp [processEntry, hv]

/-- Witness for the amended claim C6 at a concrete key-less chunk whose
venue lacks the preprint marker. -/
theorem parseBibTex_malformed_abort_witness :
    parseBibTex (.entries [eNoKey]) = [] :=
  (parseBibTex_malformed_abort [eNoKey]).1 ⟨eNoKey, by simp, rfl, rfl⟩

/-- Claim C7 counterexample: the accent mapping table of `decodeLatex` has
no entry for the double-acute escape, so `decodeLatex` on the input does
not produce the composed letter: only the inner braces are stripped and the
escape survives verbatim. -/
theorem decodeLatex_double_acute_cex :
    decodeLatex "Erd\\H\x7bo\x7ds" = "Erd\\Hos" ∧ "Erd\\Hos" ≠ "Erdős" := by
  exact ⟨rfl, by decide⟩

/-- Claim C7 amended: `decodeLatex` leaves the double-acute escape
undecoded apart from brace stripping (the accent map covers only acute,
umlaut, grave, circumflex, tilde, macron and dot), while braced plain text
is unwrapped with case preserved and no escape treatment. -/
theorem decodeLatex_examples :
    decodeLatex "Erd\\H\x7bo\x7ds" = "Erd\\Hos" ∧ decodeLatex "\x7bNASA\x7d" = "NASA" := by
  exact ⟨rfl, rfl⟩
